import Mathlib

/-!
Shallow embedding of the wire data model and helper routines of the
`azure-functions-rs` repository.

Conventions of the embedding:
* A prost message struct becomes a Lean structure with the same fields.
* A prost `oneof` becomes a Lean inductive; its Rust name lives in a
  nested module (`typed_data::Data`, `streaming_message::Content`,
  `nullable_string::String`), which Lean cannot mirror without shadowing,
  so the inner type is named `TypedDataOneof`, `StreamingMessageContent`,
  `NullableStringOneof` and so on.
* A prost field declared as an enum is stored as the enum; the `i32`
  carrier used on the wire is captured by `toInt` / `fromInt` functions
  mirroring the declared discriminant values.
* `i64`/`i32` become `Int`, `f64` becomes `Float`, `Vec<u8>` becomes
  `List UInt8`, `Vec<T>` becomes `List T`, `Option<T>` becomes `Option T`,
  and `HashMap<String, T>` becomes its lookup function `String → Option T`
  (at most one value per key, exactly the map behaviour the claims use).
-/

namespace AzFn

/-- Lookup-function model of `std::collections::HashMap<String, V>`. -/
def StrMap (α : Type) : Type := String → Option α

/-- Model of `prost_types::Timestamp`. -/
structure Timestamp where
  seconds : Int
  nanos : Int

/-- Model of `prost_types::Duration`. -/
structure Duration where
  seconds : Int
  nanos : Int

/-- Inner oneof of `NullableString` (`nullable_string::String`, one variant `Value(String)`). -/
inductive NullableStringOneof where
  | Value (v : String)

/-- Model of `NullableString`: outer optional oneof. -/
structure NullableString where
  string : Option NullableStringOneof

/-- Inner oneof of `NullableDouble` (`nullable_double::Double`). -/
inductive NullableDoubleOneof where
  | Value (v : Float)

/-- Model of `NullableDouble`. -/
structure NullableDouble where
  double : Option NullableDoubleOneof

/-- Inner oneof of `NullableBool` (`nullable_bool::Bool`). -/
inductive NullableBoolOneof where
  | Value (v : Bool)

/-- Model of `NullableBool`. -/
structure NullableBool where
  bool : Option NullableBoolOneof

/-- Inner oneof of `NullableTimestamp` (`nullable_timestamp::Timestamp`). -/
inductive NullableTimestampOneof where
  | Value (v : Timestamp)

/-- Model of `NullableTimestamp`. -/
structure NullableTimestamp where
  timestamp : Option NullableTimestampOneof

/-- Model of `RpcClaim`. -/
structure RpcClaim where
  value : String
  type : String

/-- Model of `RpcClaimsIdentity`. -/
structure RpcClaimsIdentity where
  authentication_type : Option NullableString
  name_claim_type : Option NullableString
  role_claim_type : Option NullableString
  claims : List RpcClaim

/-- Model of `RpcException`. -/
structure RpcException where
  source : String
  stack_trace : String
  message : String

/-- Model of `rpc_log::Level`. -/
inductive RpcLogLevel where
  | Trace | Debug | Information | Warning | Error | Critical | None
deriving DecidableEq

/-- Model of `RpcLog`. -/
structure RpcLog where
  invocation_id : String
  category : String
  level : RpcLogLevel
  message : String
  event_id : String
  exception : Option RpcException
  properties : String

/-- Model of `status_result::Status` with discriminants 0, 1, 2. -/
inductive StatusResultStatus where
  | Failure | Success | Cancelled
deriving DecidableEq

/-- Wire discriminant of `status_result::Status` (`Failure = 0, Success = 1, Cancelled = 2`). -/
def StatusResultStatus.toInt : StatusResultStatus → Int
  | .Failure => 0
  | .Success => 1
  | .Cancelled => 2

/-- Decoding of the `i32` carrier of `status_result::Status`. -/
def StatusResultStatus.fromInt (i : Int) : Option StatusResultStatus :=
  if i = 0 then some .Failure
  else if i = 1 then some .Success
  else if i = 2 then some .Cancelled
  else none

/-- Model of `StatusResult` (the `result` field is its message string). -/
structure StatusResult where
  status : StatusResultStatus
  result : String
  exception : Option RpcException
  logs : List RpcLog

/-- Model of `rpc_http_cookie::SameSite`. -/
inductive RpcHttpCookieSameSite where
  | None | Lax | Strict
deriving DecidableEq

/-- Model of `RpcHttpCookie`. -/
structure RpcHttpCookie where
  name : String
  value : String
  domain : Option NullableString
  path : Option NullableString
  expires : Option NullableTimestamp
  secure : Option NullableBool
  http_only : Option NullableBool
  same_site : RpcHttpCookieSameSite
  max_age : Option NullableDouble

mutual
/-- Model of `TypedData`: an optional tagged union (`typed_data::Data`). -/
inductive TypedData where
  | mk (data : Option TypedDataOneof)

/-- Model of `typed_data::Data`: the seven wire variants. -/
inductive TypedDataOneof where
  | String (v : String)
  | Json (v : String)
  | Bytes (v : List UInt8)
  | Stream (v : List UInt8)
  | Http (v : RpcHttp)
  | Int (v : Int)
  | Double (v : Float)

/-- Model of `RpcHttp`, mutually recursive with `TypedData` through `body` and `raw_body`. -/
inductive RpcHttp where
  | mk (method : String) (url : String) (headers : StrMap String)
      (body : Option TypedData) (params : StrMap String) (status_code : String)
      (query : StrMap String) (enable_content_negotiation : Bool)
      (raw_body : Option TypedData) (identities : List RpcClaimsIdentity)
      (cookies : List RpcHttpCookie)
end

/-- Field accessor for `TypedData.data`. -/
def TypedData.data : TypedData → Option TypedDataOneof
  | .mk d => d

/-- Field accessor for `RpcHttp.method`. -/
def RpcHttp.method : RpcHttp → String
  | .mk m _ _ _ _ _ _ _ _ _ _ => m

/-- Field accessor for `RpcHttp.url`. -/
def RpcHttp.url : RpcHttp → String
  | .mk _ u _ _ _ _ _ _ _ _ _ => u

/-- Field accessor for `RpcHttp.headers`. -/
def RpcHttp.headers : RpcHttp → StrMap String
  | .mk _ _ h _ _ _ _ _ _ _ _ => h

/-- Field accessor for `RpcHttp.body`. -/
def RpcHttp.body : RpcHttp → Option TypedData
  | .mk _ _ _ b _ _ _ _ _ _ _ => b

/-- Field accessor for `RpcHttp.params`. -/
def RpcHttp.params : RpcHttp → StrMap String
  | .mk _ _ _ _ p _ _ _ _ _ _ => p

/-- Field accessor for `RpcHttp.status_code`. -/
def RpcHttp.status_code : RpcHttp → String
  | .mk _ _ _ _ _ s _ _ _ _ _ => s

/-- Field accessor for `RpcHttp.query`. -/
def RpcHttp.query : RpcHttp → StrMap String
  | .mk _ _ _ _ _ _ q _ _ _ _ => q

/-- Field accessor for `RpcHttp.enable_content_negotiation`. -/
def RpcHttp.enable_content_negotiation : RpcHttp → Bool
  | .mk _ _ _ _ _ _ _ e _ _ _ => e

/-- Field accessor for `RpcHttp.raw_body`. -/
def RpcHttp.raw_body : RpcHttp → Option TypedData
  | .mk _ _ _ _ _ _ _ _ r _ _ => r

/-- Field accessor for `RpcHttp.identities`. -/
def RpcHttp.identities : RpcHttp → List RpcClaimsIdentity
  | .mk _ _ _ _ _ _ _ _ _ i _ => i

/-- Field accessor for `RpcHttp.cookies`. -/
def RpcHttp.cookies : RpcHttp → List RpcHttpCookie
  | .mk _ _ _ _ _ _ _ _ _ _ c => c

/-- Model of `ParameterBinding`: a named, optional typed value. -/
structure ParameterBinding where
  name : String
  data : Option TypedData

/-- Model of `binding_info::Direction` with discriminants 0, 1, 2. -/
inductive BindingInfoDirection where
  | In | Out | Inout
deriving DecidableEq

/-- Wire discriminant of `binding_info::Direction` (`In = 0, Out = 1, Inout = 2`). -/
def BindingInfoDirection.toInt : BindingInfoDirection → Int
  | .In => 0
  | .Out => 1
  | .Inout => 2

/-- Decoding of the `i32` carrier of `binding_info::Direction`. -/
def BindingInfoDirection.fromInt (i : Int) : Option BindingInfoDirection :=
  if i = 0 then some .In
  else if i = 1 then some .Out
  else if i = 2 then some .Inout
  else none

/-- Model of `binding_info::DataType` with discriminants 0, 1, 2, 3. -/
inductive BindingInfoDataType where
  | Undefined | String | Binary | Stream
deriving DecidableEq

/-- Wire discriminant of `binding_info::DataType`. -/
def BindingInfoDataType.toInt : BindingInfoDataType → Int
  | .Undefined => 0
  | .String => 1
  | .Binary => 2
  | .Stream => 3

/-- Decoding of the `i32` carrier of `binding_info::DataType`. -/
def BindingInfoDataType.fromInt (i : Int) : Option BindingInfoDataType :=
  if i = 0 then some .Undefined
  else if i = 1 then some .String
  else if i = 2 then some .Binary
  else if i = 3 then some .Stream
  else none

/-- Model of `BindingInfo`. -/
structure BindingInfo where
  type : String
  direction : BindingInfoDirection
  data_type : BindingInfoDataType

/-- Model of `RpcFunctionMetadata`. -/
structure RpcFunctionMetadata where
  name : String
  directory : String
  script_file : String
  entry_point : String
  bindings : StrMap BindingInfo
  is_proxy : Bool

/-- Model of `StartStream`. -/
structure StartStream where
  worker_id : String

/-- Model of `WorkerInitRequest` (log-category levels keep the `i32` carrier, as in the source). -/
structure WorkerInitRequest where
  host_version : String
  capabilities : StrMap String
  log_categories : StrMap Int

/-- Model of `WorkerInitResponse`. -/
structure WorkerInitResponse where
  worker_version : String
  capabilities : StrMap String
  result : Option StatusResult

/-- Model of `WorkerHeartbeat` (empty by design). -/
structure WorkerHeartbeat where

/-- Model of `WorkerTerminate`. -/
structure WorkerTerminate where
  grace_period : Option Duration

/-- Model of `file_change_event_request::Type`. -/
inductive FileChangeEventType where
  | Unknown | Created | Deleted | Changed | Renamed | All
deriving DecidableEq

/-- Model of `FileChangeEventRequest`. -/
structure FileChangeEventRequest where
  type : FileChangeEventType
  full_path : String
  name : String

/-- Model of `worker_action_response::Action`. -/
inductive WorkerActionResponseAction where
  | Restart | Reload
deriving DecidableEq

/-- Model of `WorkerActionResponse`. -/
structure WorkerActionResponse where
  action : WorkerActionResponseAction
  reason : String

/-- Model of `WorkerStatusRequest` (empty). -/
structure WorkerStatusRequest where

/-- Model of `WorkerStatusResponse` (empty). -/
structure WorkerStatusResponse where

/-- Model of `FunctionEnvironmentReloadRequest`. -/
structure FunctionEnvironmentReloadRequest where
  environment_variables : StrMap String

/-- Model of `FunctionEnvironmentReloadResponse`. -/
structure FunctionEnvironmentReloadResponse where
  result : Option StatusResult

/-- Model of `FunctionLoadRequest`. -/
structure FunctionLoadRequest where
  function_id : String
  metadata : Option RpcFunctionMetadata
  managed_dependency_enabled : Bool

/-- Model of `FunctionLoadResponse`. -/
structure FunctionLoadResponse where
  function_id : String
  result : Option StatusResult
  is_dependency_downloaded : Bool

/-- Model of `InvocationRequest`: `input_data` is a repeated list, `trigger_metadata` a map. -/
structure InvocationRequest where
  invocation_id : String
  function_id : String
  input_data : List ParameterBinding
  trigger_metadata : StrMap TypedData

/-- Model of `InvocationCancel`. -/
structure InvocationCancel where
  invocation_id : String
  grace_period : Option Duration

/-- Model of `InvocationResponse`. -/
structure InvocationResponse where
  invocation_id : String
  output_data : List ParameterBinding
  return_value : Option TypedData
  result : Option StatusResult

/-- Model of `streaming_message::Content`: the closed set of payload kinds. -/
inductive StreamingMessageContent where
  | StartStream (v : StartStream)
  | WorkerInitRequest (v : WorkerInitRequest)
  | WorkerInitResponse (v : WorkerInitResponse)
  | WorkerHeartbeat (v : WorkerHeartbeat)
  | WorkerTerminate (v : WorkerTerminate)
  | WorkerStatusRequest (v : WorkerStatusRequest)
  | WorkerStatusResponse (v : WorkerStatusResponse)
  | FileChangeEventRequest (v : FileChangeEventRequest)
  | WorkerActionResponse (v : WorkerActionResponse)
  | FunctionLoadRequest (v : FunctionLoadRequest)
  | FunctionLoadResponse (v : FunctionLoadResponse)
  | InvocationRequest (v : InvocationRequest)
  | InvocationResponse (v : InvocationResponse)
  | InvocationCancel (v : InvocationCancel)
  | RpcLog (v : RpcLog)
  | FunctionEnvironmentReloadRequest (v : FunctionEnvironmentReloadRequest)
  | FunctionEnvironmentReloadResponse (v : FunctionEnvironmentReloadResponse)

/-- Model of `StreamingMessage`: request id plus optional oneof payload. -/
structure StreamingMessage where
  request_id : String
  content : Option StreamingMessageContent

/-- The seventeen message kinds named in the data model. -/
inductive StreamingMessageKind where
  | StartStream | WorkerInitRequest | WorkerInitResponse | WorkerHeartbeat
  | WorkerTerminate | WorkerStatusRequest | WorkerStatusResponse
  | FileChangeEventRequest | WorkerActionResponse | FunctionLoadRequest
  | FunctionLoadResponse | InvocationRequest | InvocationResponse
  | InvocationCancel | RpcLog | FunctionEnvironmentReloadRequest
  | FunctionEnvironmentReloadResponse
deriving DecidableEq

/-- Kind tag of a payload variant. -/
def StreamingMessageContent.kind : StreamingMessageContent → StreamingMessageKind
  | .StartStream _ => .StartStream
  | .WorkerInitRequest _ => .WorkerInitRequest
  | .WorkerInitResponse _ => .WorkerInitResponse
  | .WorkerHeartbeat _ => .WorkerHeartbeat
  | .WorkerTerminate _ => .WorkerTerminate
  | .WorkerStatusRequest _ => .WorkerStatusRequest
  | .WorkerStatusResponse _ => .WorkerStatusResponse
  | .FileChangeEventRequest _ => .FileChangeEventRequest
  | .WorkerActionResponse _ => .WorkerActionResponse
  | .FunctionLoadRequest _ => .FunctionLoadRequest
  | .FunctionLoadResponse _ => .FunctionLoadResponse
  | .InvocationRequest _ => .InvocationRequest
  | .InvocationResponse _ => .InvocationResponse
  | .InvocationCancel _ => .InvocationCancel
  | .RpcLog _ => .RpcLog
  | .FunctionEnvironmentReloadRequest _ => .FunctionEnvironmentReloadRequest
  | .FunctionEnvironmentReloadResponse _ => .FunctionEnvironmentReloadResponse

/-- Number of payload kinds present in an envelope: a oneof holds zero or one. -/
def StreamingMessage.contentCount (m : StreamingMessage) : Nat :=
  match m.content with
  | none => 0
  | some _ => 1

/-- The seven value kinds of `typed_data::Data`. -/
inductive TypedDataKind where
  | String | Json | Bytes | Stream | Http | Int | Double
deriving DecidableEq

/-- Kind tag of a `typed_data::Data` variant. -/
def TypedDataOneof.kind : TypedDataOneof → TypedDataKind
  | .String _ => .String
  | .Json _ => .Json
  | .Bytes _ => .Bytes
  | .Stream _ => .Stream
  | .Http _ => .Http
  | .Int _ => .Int
  | .Double _ => .Double

/-- Number of populated variants in a `TypedData`: a oneof holds zero or one. -/
def TypedData.dataCount (td : TypedData) : Nat :=
  match td.data with
  | none => 0
  | some _ => 1

/-- Embedding of an `RpcHttp` value into the `TypedData` union (the `Http` variant). -/
def TypedData.ofHttp (h : RpcHttp) : TypedData :=
  .mk (some (.Http h))

/-- Projection of the `Http` variant back out of the `TypedData` union. -/
def TypedData.asHttp : TypedData → Option RpcHttp
  | .mk (some (.Http h)) => some h
  | _ => none

/-!
Dispatcher response-emission model.

Modelled from the spec: the `InvocationDispatcher` and `InvocationTable`
components (spec sections 4.4 and 5) are not part of the source fragment;
only the wire messages they exchange are.  Following the spec's words: an
accepted invocation request registers the invocation in the table; a
handler completion emits the invocation's response only when the
invocation is still tracked as in flight; a grace-period timeout
force-reports Cancelled, after which the unit's eventual completion is
discarded and never produces a second response frame for that
`invocation_id`.
-/

/-- Events that decide response emission for an `invocation_id`:
an accepted invocation request, a handler completion, and a
cancellation grace-period timeout. -/
inductive InvEvent where
  | accept (id : String)
  | complete (id : String)
  | cancelTimeout (id : String)

/-- Tracking state of one `invocation_id` in the invocation table. -/
inductive InvStatus where
  | unknown | inflight | done
deriving DecidableEq

/-- Pointwise update of the invocation table. -/
def updInv (s : String → InvStatus) (id : String) (v : InvStatus) : String → InvStatus :=
  fun x => if x = id then v else s x

/-- One dispatcher step: the new table and the `invocation_id`s of the
response frames emitted by this event.  A completion or forced-cancel
timeout emits exactly when the invocation is still in flight; otherwise
it is discarded. -/
def dispatchStep (s : String → InvStatus) : InvEvent → (String → InvStatus) × List String
  | .accept id => (updInv s id .inflight, [])
  | .complete id =>
      if s id = .inflight then (updInv s id .done, [id]) else (s, [])
  | .cancelTimeout id =>
      if s id = .inflight then (updInv s id .done, [id]) else (s, [])

/-- Run the dispatcher over a trace, collecting the `invocation_id`s of all
emitted response frames in order. -/
def dispatchRun (s : String → InvStatus) : List InvEvent → List String
  | [] => []
  | e :: rest => (dispatchStep s e).2 ++ dispatchRun (dispatchStep s e).1 rest

/-- Number of times a given `invocation_id` is accepted in a trace. -/
def acceptCount : List InvEvent → String → Nat
  | [], _ => 0
  | .accept j :: rest, id => (if j = id then 1 else 0) + acceptCount rest id
  | _ :: rest, id => acceptCount rest id

/-- Whether a trace contains a terminal event (completion or forced-cancel
timeout) for a given `invocation_id`. -/
def hasTerminal : List InvEvent → String → Bool
  | [], _ => false
  | .accept _ :: rest, id => hasTerminal rest id
  | .complete j :: rest, id => j = id || hasTerminal rest id
  | .cancelTimeout j :: rest, id => j = id || hasTerminal rest id

/-- Whether a trace accepts a given `invocation_id` and later carries a
terminal event for it. -/
def acceptedThenTerminal : List InvEvent → String → Bool
  | [], _ => false
  | .accept j :: rest, id =>
      if j = id then hasTerminal rest id else acceptedThenTerminal rest id
  | _ :: rest, id => acceptedThenTerminal rest id

/-!
Model of `get_path_for_function` from `azure-functions-sdk/src/commands/new.rs`.
The two filesystem probes of the source (`Path::new("src/functions").is_dir()`
and `Path::new(&path).exists()`) are passed in as parameters, so the function
itself stays the pure decision logic of the source.
-/

/-- Decision of `Regex::new("^[a-zA-Z][a-zA-Z0-9_]*$").is_match(name)`:
a first ASCII letter followed by ASCII letters, digits or underscores.
`Char.isAlpha` and `Char.isAlphanum` are ASCII-only, like the pattern. -/
def function_name_matches (name : String) : Bool :=
  match name.data with
  | [] => false
  | c :: rest => c.isAlpha && rest.all fun ch => ch.isAlphanum || ch == '_'

/-- Model of `get_path_for_function`.  `name.len()` in the source is the
UTF-8 byte length, embedded as `String.utf8ByteSize`. -/
def get_path_for_function (functions_dir_exists : Bool) (path_exists : String → Bool)
    (name : String) : Except String String :=
  if !function_name_matches name then
    .error "Function name must start with a letter and only contain letters, numbers, and underscores."
  else if name.utf8ByteSize > 127 then
    .error "Function names cannot exceed 127 characters."
  else if !functions_dir_exists then
    .error "Directory 'src/functions' does not exist."
  else
    let path := "src/functions/" ++ name ++ ".rs"
    if path_exists path then
      .error ("'" ++ path ++ "' already exists.")
    else
      .ok path

/-!
Model of the `QueueTrigger` binding and its hand-written `Serialize`
implementation from `azure-functions-shared/src/codegen/bindings/queue_trigger.rs`.
The serializer emits a map entry per `serialize_entry` call, in call order;
every emitted value is a string, so the serialized form is embedded as the
ordered list of key-value pairs.
-/

/-- Model of `QueueTrigger` (`Cow<'static, str>` becomes `String`). -/
structure QueueTrigger where
  name : String
  queue_name : String
  connection : Option String

/-- Model of `impl Serialize for QueueTrigger`: the ordered entries written
by the serializer. -/
def QueueTrigger.serialize (q : QueueTrigger) : List (String × String) :=
  [("name", q.name), ("type", "queueTrigger"), ("direction", "in"),
    ("queueName", q.queue_name)] ++
  (match q.connection with
   | some c => [("connection", c)]
   | none => [])

/-!
Theorems settling the claims.
-/

/-- C1 counterexample: the wire form admits an envelope whose payload carries
zero kinds — `content` is an outer `Option` around the oneof, and the envelope
with `request_id = ""` and no content is a value of the type, with
`contentCount` zero rather than one. -/
theorem C1_counterexample_empty_envelope :
    StreamingMessage.contentCount { request_id := "", content := none } = 0 := rfl

/-- C1 (amended): every envelope's payload carries at most one message kind,
and any payload present is drawn from the closed seventeen-kind set listed in
the data model; the envelope type also admits a payload-free envelope. -/
theorem C1_envelope_kinds_closed_and_at_most_one :
    (∀ m : StreamingMessage, m.contentCount ≤ 1) ∧
    (StreamingMessage.contentCount { request_id := "", content := none } = 0) ∧
    (∀ c : StreamingMessageContent,
      c.kind = .StartStream ∨ c.kind = .WorkerInitRequest ∨
      c.kind = .WorkerInitResponse ∨ c.kind = .WorkerHeartbeat ∨
      c.kind = .WorkerTerminate ∨ c.kind = .WorkerStatusRequest ∨
      c.kind = .WorkerStatusResponse ∨ c.kind = .FileChangeEventRequest ∨
      c.kind = .WorkerActionResponse ∨ c.kind = .FunctionLoadRequest ∨
      c.kind = .FunctionLoadResponse ∨ c.kind = .InvocationRequest ∨
      c.kind = .InvocationResponse ∨ c.kind = .InvocationCancel ∨
      c.kind = .RpcLog ∨ c.kind = .FunctionEnvironmentReloadRequest ∨
      c.kind = .FunctionEnvironmentReloadResponse) := by
  refine ⟨?_, rfl, ?_⟩
  · intro m
    rcases m with ⟨rid, _ | c⟩ <;> simp [StreamingMessage.contentCount]
  · intro c
    cases c <;> simp [StreamingMessageContent.kind]

/-- C2: a `TypedData` populates at most one variant, the empty value (no
variant) is the "no value" state, and the populated variant is drawn from
exactly the seven kinds String, Json, Bytes, Stream, Http, Int, Double —
each of which is realizable. -/
theorem C2_typed_data_tagged_union_seven_variants :
    (∀ td : TypedData, td.dataCount ≤ 1) ∧
    (TypedData.dataCount (.mk none) = 0) ∧
    (∀ d : TypedDataOneof,
      d.kind = .String ∨ d.kind = .Json ∨ d.kind = .Bytes ∨ d.kind = .Stream ∨
      d.kind = .Http ∨ d.kind = .Int ∨ d.kind = .Double) ∧
    (∀ k : TypedDataKind, ∃ d : TypedDataOneof, d.kind = k) := by
  refine ⟨?_, rfl, ?_, ?_⟩
  · intro td
    rcases td with ⟨_ | d⟩ <;> simp [TypedData.dataCount, TypedData.data]
  · intro d
    cases d <;> simp [TypedDataOneof.kind]
  · intro k
    cases k with
    | String => exact ⟨.String "", rfl⟩
    | Json => exact ⟨.Json "", rfl⟩
    | Bytes => exact ⟨.Bytes [], rfl⟩
    | Stream => exact ⟨.Stream [], rfl⟩
    | Http =>
        exact ⟨.Http (.mk "" "" (fun _ => none) none (fun _ => none) ""
          (fun _ => none) false none [] []), rfl⟩
    | Int => exact ⟨.Int 0, rfl⟩
    | Double => exact ⟨.Double 0.0, rfl⟩

/-- C3: every nullable wrapper is either absent (outer `Option` is `none`,
the only null) or present with exactly one inner variant carrying a concrete
value — there is no present-but-unset state — and the null wrapper is
distinguishable from the wrapper of an empty string / `false` value. -/
theorem C3_nullable_wrappers_null_vs_value :
    (∀ ns : NullableString, ns.string = none ∨ ∃ s, ns.string = some (.Value s)) ∧
    (∀ nb : NullableBool, nb.bool = none ∨ ∃ b, nb.bool = some (.Value b)) ∧
    (∀ nd : NullableDouble, nd.double = none ∨ ∃ x, nd.double = some (.Value x)) ∧
    (∀ nt : NullableTimestamp,
      nt.timestamp = none ∨ ∃ t, nt.timestamp = some (.Value t)) ∧
    ((NullableString.mk none).string.isNone = true) ∧
    ((NullableString.mk (some (.Value ""))).string.isNone = false) ∧
    ((NullableBool.mk none).bool.isNone = true) ∧
    ((NullableBool.mk (some (.Value false))).bool.isNone = false) := by
  refine ⟨?_, ?_, ?_, ?_, rfl, rfl, rfl, rfl⟩
  · intro ns
    rcases ns with ⟨_ | ⟨⟨s⟩⟩⟩
    · exact Or.inl rfl
    · exact Or.inr ⟨s, rfl⟩
  · intro nb
    rcases nb with ⟨_ | ⟨⟨b⟩⟩⟩
    · exact Or.inl rfl
    · exact Or.inr ⟨b, rfl⟩
  · intro nd
    rcases nd with ⟨_ | ⟨⟨x⟩⟩⟩
    · exact Or.inl rfl
    · exact Or.inr ⟨x, rfl⟩
  · intro nt
    rcases nt with ⟨_ | ⟨⟨t⟩⟩⟩
    · exact Or.inl rfl
    · exact Or.inr ⟨t, rfl⟩

/-- C5: a `StatusResult` has exactly the shape claimed — a status drawn from
exactly the three-element set Failure/Success/Cancelled (wire codes 0, 1, 2
and nothing else decodes), a message string, an optional exception record
whose fields are source, message and stack trace, and a sequence of logs. -/
theorem C5_status_result_shape :
    (∀ s : StatusResultStatus, s = .Failure ∨ s = .Success ∨ s = .Cancelled) ∧
    (∀ s : StatusResultStatus, StatusResultStatus.fromInt s.toInt = some s) ∧
    (∀ i : Int,
      (StatusResultStatus.fromInt i).isSome = true ↔ (i = 0 ∨ i = 1 ∨ i = 2)) ∧
    (∀ r : StatusResult, r = ⟨r.status, r.result, r.exception, r.logs⟩) ∧
    (∀ r : StatusResult, r.exception = none ∨ ∃ e, r.exception = some e) ∧
    (∀ e : RpcException, e = ⟨e.source, e.stack_trace, e.message⟩) := by
  refine ⟨?_, ?_, ?_, ?_, ?_, ?_⟩
  · intro s; cases s <;> simp
  · intro s; cases s <;> rfl
  · intro i
    by_cases h0 : i = 0 <;> by_cases h1 : i = 1 <;> by_cases h2 : i = 2 <;>
      simp [StatusResultStatus.fromInt, h0, h1, h2]
  · intro r; rfl
  · intro r
    rcases r with ⟨st, msg, _ | e, lgs⟩
    · exact Or.inl rfl
    · exact Or.inr ⟨e, rfl⟩
  · intro e; rfl

/-- C7: the structured HTTP variant carries method, URL, header/query/param
maps, a body that is itself a nested `TypedData`, cookies, and
claims-identity records; building an `RpcHttp` and sending it through the
`Http` variant of the `TypedData` union loses none of these fields. -/
theorem C7_http_variant_round_trips_all_fields :
    (∀ h : RpcHttp, (TypedData.ofHttp h).asHttp = some h) ∧
    (∀ (m u : String) (hd : StrMap String) (b : Option TypedData)
        (p : StrMap String) (sc : String) (q : StrMap String) (ecn : Bool)
        (rb : Option TypedData) (ids : List RpcClaimsIdentity)
        (cks : List RpcHttpCookie),
      (RpcHttp.mk m u hd b p sc q ecn rb ids cks).method = m ∧
      (RpcHttp.mk m u hd b p sc q ecn rb ids cks).url = u ∧
      (RpcHttp.mk m u hd b p sc q ecn rb ids cks).headers = hd ∧
      (RpcHttp.mk m u hd b p sc q ecn rb ids cks).body = b ∧
      (RpcHttp.mk m u hd b p sc q ecn rb ids cks).params = p ∧
      (RpcHttp.mk m u hd b p sc q ecn rb ids cks).status_code = sc ∧
      (RpcHttp.mk m u hd b p sc q ecn rb ids cks).query = q ∧
      (RpcHttp.mk m u hd b p sc q ecn rb ids cks).enable_content_negotiation = ecn ∧
      (RpcHttp.mk m u hd b p sc q ecn rb ids cks).raw_body = rb ∧
      (RpcHttp.mk m u hd b p sc q ecn rb ids cks).identities = ids ∧
      (RpcHttp.mk m u hd b p sc q ecn rb ids cks).cookies = cks) := by
  refine ⟨?_, ?_⟩
  · intro h; cases h; rfl
  · intro m u hd b p sc q ecn rb ids cks
    exact ⟨rfl, rfl, rfl, rfl, rfl, rfl, rfl, rfl, rfl, rfl, rfl⟩

/-- C8: a `BindingInfo` has exactly the shape claimed — a type string, a
direction drawn from exactly In/Out/Inout (wire codes 0, 1, 2 and nothing
else decodes) and a data type drawn from exactly
Undefined/String/Binary/Stream (wire codes 0, 1, 2, 3 and nothing else
decodes). -/
theorem C8_binding_info_shape :
    (∀ d : BindingInfoDirection, d = .In ∨ d = .Out ∨ d = .Inout) ∧
    (∀ d : BindingInfoDirection, BindingInfoDirection.fromInt d.toInt = some d) ∧
    (∀ i : Int,
      (BindingInfoDirection.fromInt i).isSome = true ↔ (i = 0 ∨ i = 1 ∨ i = 2)) ∧
    (∀ t : BindingInfoDataType,
      t = .Undefined ∨ t = .String ∨ t = .Binary ∨ t = .Stream) ∧
    (∀ t : BindingInfoDataType, BindingInfoDataType.fromInt t.toInt = some t) ∧
    (∀ i : Int,
      (BindingInfoDataType.fromInt i).isSome = true ↔
        (i = 0 ∨ i = 1 ∨ i = 2 ∨ i = 3)) ∧
    (∀ b : BindingInfo, b = ⟨b.type, b.direction, b.data_type⟩) := by
  refine ⟨?_, ?_, ?_, ?_, ?_, ?_, ?_⟩
  · intro d; cases d <;> simp
  · intro d; cases d <;> rfl
  · intro i
    by_cases h0 : i = 0 <;> by_cases h1 : i = 1 <;> by_cases h2 : i = 2 <;>
      simp [BindingInfoDirection.fromInt, h0, h1, h2]
  · intro t; cases t <;> simp
  · intro t; cases t <;> rfl
  · intro i
    by_cases h0 : i = 0 <;> by_cases h1 : i = 1 <;> by_cases h2 : i = 2 <;>
      by_cases h3 : i = 3 <;>
      simp [BindingInfoDataType.fromInt, h0, h1, h2, h3]
  · intro b; rfl

/-- C10: serializing a `QueueTrigger` emits the entries in the fixed order
name, type, direction, queueName, then connection exactly when the
connection field is present; the type entry is always the constant
"queueTrigger" and the direction entry is always the constant "in", and the
entry values are the corresponding fields. -/
theorem C10_queue_trigger_serialize_shape :
    ∀ q : QueueTrigger,
      (q.serialize.map Prod.fst =
        ["name", "type", "direction", "queueName"] ++
          (match q.connection with
           | some _ => ["connection"]
           | none => [])) ∧
      q.serialize.lookup "name" = some q.name ∧
      q.serialize.lookup "type" = some "queueTrigger" ∧
      q.serialize.lookup "direction" = some "in" ∧
      q.serialize.lookup "queueName" = some q.queue_name ∧
      q.serialize.lookup "connection" = q.connection := by
  intro q
  rcases hc : q.connection with _ | c <;>
    simp [QueueTrigger.serialize, hc, List.lookup]

/-- An invocation request whose repeated `input_data` list binds the same
name twice — representable because `input_data` is a list of
`ParameterBinding`, not a name-keyed map. -/
def dupInputRequest : InvocationRequest :=
  { invocation_id := "inv1"
    function_id := "fn1"
    input_data := [⟨"a", none⟩, ⟨"a", none⟩]
    trigger_metadata := fun _ => none }

/-- C6 counterexample: in `dupInputRequest` the binding name "a" is carried
by two entries of `input_data`, so the input bindings do not form a
name-keyed mapping with at most one value per name, unlike
`trigger_metadata`. -/
theorem C6_counterexample_duplicate_input_names :
    (dupInputRequest.input_data.map ParameterBinding.name).count "a" = 2 := rfl

/-- C6 (amended): an invocation request carries `invocation_id`,
`function_id`, input bindings as a repeated sequence of named optional
typed values — names may repeat, so it is not the same shape as
`trigger_metadata` — and `trigger_metadata` as a name-keyed mapping
associating at most one value to each name. -/
theorem C6_invocation_request_shape :
    (∀ (iid fid : String) (inp : List ParameterBinding) (tm : StrMap TypedData),
      (InvocationRequest.mk iid fid inp tm).invocation_id = iid ∧
      (InvocationRequest.mk iid fid inp tm).function_id = fid ∧
      (InvocationRequest.mk iid fid inp tm).input_data = inp ∧
      (InvocationRequest.mk iid fid inp tm).trigger_metadata = tm) ∧
    (∀ (n : String) (d : Option TypedData),
      (ParameterBinding.mk n d).name = n ∧ (ParameterBinding.mk n d).data = d) ∧
    (∀ r : InvocationRequest,
      r = ⟨r.invocation_id, r.function_id, r.input_data, r.trigger_metadata⟩) ∧
    (∀ (tm : StrMap TypedData) (k : String) (v1 v2 : TypedData),
      tm k = some v1 → tm k = some v2 → v1 = v2) := by
  refine ⟨?_, ?_, ?_, ?_⟩
  · intro iid fid inp tm
    exact ⟨rfl, rfl, rfl, rfl⟩
  · intro n d
    exact ⟨rfl, rfl⟩
  · intro r; rfl
  · intro tm k v1 v2 h1 h2
    rw [h1] at h2
    exact Option.some_injective _ h2

/-- C6 witness: the mapping-determinism part of the amended claim applied at
a concrete map sending every name to the empty typed value. -/
theorem C6_invocation_request_shape_witness :
    ((fun _ => some (TypedData.mk none) : StrMap TypedData) "k" =
      some (TypedData.mk none)) ∧
    TypedData.mk none = TypedData.mk none :=
  ⟨rfl, C6_invocation_request_shape.2.2.2 (fun _ => some (TypedData.mk none))
    "k" (TypedData.mk none) (TypedData.mk none) rfl rfl⟩

/-- C9: `get_path_for_function` rejects a name that fails the
letter-then-letters/digits/underscores pattern with the character-set error
(this check runs first, so it wins even for overlong names), rejects a
pattern-passing name longer than 127 bytes with the length error, and any
`Ok` result implies the name passed both checks and the returned path is
`src/functions/<name>.rs`. -/
theorem C9_get_path_for_function_checks :
    ∀ (dirExists : Bool) (pathExists : String → Bool) (name : String),
      (function_name_matches name = false →
        get_path_for_function dirExists pathExists name =
          .error "Function name must start with a letter and only contain letters, numbers, and underscores.") ∧
      (function_name_matches name = true → 127 < name.utf8ByteSize →
        get_path_for_function dirExists pathExists name =
          .error "Function names cannot exceed 127 characters.") ∧
      (∀ p, get_path_for_function dirExists pathExists name = .ok p →
        function_name_matches name = true ∧ name.utf8ByteSize ≤ 127 ∧
        p = "src/functions/" ++ name ++ ".rs") := by
  intro dirExists pathExists name
  refine ⟨?_, ?_, ?_⟩
  · intro hm
    simp [get_path_for_function, hm]
  · intro hm hlen
    simp [get_path_for_function, hm, hlen]
  · intro p hok
    by_cases hm : function_name_matches name
    · by_cases hlen : 127 < name.utf8ByteSize
      · simp [get_path_for_function, hm, hlen] at hok
      · by_cases hdir : dirExists
        · by_cases hex : pathExists ("src/functions/" ++ name ++ ".rs")
          · simp [get_path_for_function, hm, hlen, hdir, hex] at hok
          · simp [get_path_for_function, hm, hlen, hdir, hex] at hok
            exact ⟨hm, by omega, hok.symm⟩
        · simp [get_path_for_function, hm, hlen, hdir] at hok
    · simp [get_path_for_function, hm] at hok

/-- C9 witness: the theorem applied at concrete inputs — a name starting
with a digit is rejected with the character-set error even though it is
also short, and a valid name produces the expected path. -/
theorem C9_get_path_for_function_checks_witness :
    function_name_matches "9bad" = false ∧
    get_path_for_function true (fun _ => false) "9bad" =
      .error "Function name must start with a letter and only contain letters, numbers, and underscores." :=
  ⟨by decide, ((C9_get_path_for_function_checks true (fun _ => false) "9bad").1 (by decide))⟩

/-- Once an invocation is marked done, no further response frame for it is
ever emitted (stale completions are discarded), provided the id is not
accepted again. -/
theorem dispatchRun_count_of_done :
    ∀ (t : List InvEvent) (s : String → InvStatus) (id : String),
      s id = .done → acceptCount t id = 0 → (dispatchRun s t).count id = 0 := by
  intro t
  induction t with
  | nil => intro s id _ _; simp [dispatchRun]
  | cons e rest ih =>
    intro s id hdone hacc
    cases e with
    | accept j =>
      have hj : j ≠ id := by
        intro h
        subst h
        simp [acceptCount] at hacc
      have hij : id ≠ j := fun h => hj h.symm
      have hacc' : acceptCount rest id = 0 := by
        simpa [acceptCount, hj] using hacc
      have hdone' : updInv s j .inflight id = .done := by
        simp [updInv, hij, hdone]
      simpa [dispatchRun, dispatchStep] using ih (updInv s j .inflight) id hdone' hacc'
    | complete j =>
      have hacc' : acceptCount rest id = 0 := by
        simpa [acceptCount] using hacc
      by_cases hsj : s j = .inflight
      · have hj : j ≠ id := by
          intro h
          subst h
          rw [hdone] at hsj
          exact absurd hsj (by simp)
        have hij : id ≠ j := fun h => hj h.symm
        have hdone' : updInv s j .done id = .done := by
          simp [updInv, hij, hdone]
        have := ih (updInv s j .done) id hdone' hacc'
        simp [dispatchRun, dispatchStep, hsj, List.count_cons, hij, this]
      · simpa [dispatchRun, dispatchStep, hsj] using ih s id hdone hacc'
    | cancelTimeout j =>
      have hacc' : acceptCount rest id = 0 := by
        simpa [acceptCount] using hacc
      by_cases hsj : s j = .inflight
      · have hj : j ≠ id := by
          intro h
          subst h
          rw [hdone] at hsj
          exact absurd hsj (by simp)
        have hij : id ≠ j := fun h => hj h.symm
        have hdone' : updInv s j .done id = .done := by
          simp [updInv, hij, hdone]
        have := ih (updInv s j .done) id hdone' hacc'
        simp [dispatchRun, dispatchStep, hsj, List.count_cons, hij, this]
      · simpa [dispatchRun, dispatchStep, hsj] using ih s id hdone hacc'

/-- An in-flight invocation that is never re-accepted emits exactly one
response frame when a terminal event (completion or forced-cancel timeout)
for it occurs, and none otherwise. -/
theorem dispatchRun_count_of_inflight :
    ∀ (t : List InvEvent) (s : String → InvStatus) (id : String),
      s id = .inflight → acceptCount t id = 0 →
      (dispatchRun s t).count id = (hasTerminal t id).toNat := by
  intro t
  induction t with
  | nil => intro s id _ _; simp [dispatchRun, hasTerminal]
  | cons e rest ih =>
    intro s id hinf hacc
    cases e with
    | accept j =>
      have hj : j ≠ id := by
        intro h
        subst h
        simp [acceptCount] at hacc
      have hij : id ≠ j := fun h => hj h.symm
      have hacc' : acceptCount rest id = 0 := by
        simpa [acceptCount, hj] using hacc
      have hinf' : updInv s j .inflight id = .inflight := by
        simp [updInv, hij, hinf]
      simpa [dispatchRun, dispatchStep, hasTerminal] using
        ih (updInv s j .inflight) id hinf' hacc'
    | complete j =>
      have hacc' : acceptCount rest id = 0 := by
        simpa [acceptCount] using hacc
      by_cases hj : j = id
      · subst hj
        have hdone' : updInv s j .done j = .done := by
          simp [updInv]
        have hrest := dispatchRun_count_of_done rest (updInv s j .done) j hdone' hacc'
        simp [dispatchRun, dispatchStep, hinf, List.count_cons, hrest, hasTerminal]
      · have hij : id ≠ j := fun h => hj h.symm
        by_cases hsj : s j = .inflight
        · have hinf' : updInv s j .done id = .inflight := by
            simp [updInv, hij, hinf]
          have := ih (updInv s j .done) id hinf' hacc'
          simp [dispatchRun, dispatchStep, hsj, List.count_cons, hij, hasTerminal, hj, this]
        · have := ih s id hinf hacc'
          simp [dispatchRun, dispatchStep, hsj, hasTerminal, hj, this]
    | cancelTimeout j =>
      have hacc' : acceptCount rest id = 0 := by
        simpa [acceptCount] using hacc
      by_cases hj : j = id
      · subst hj
        have hdone' : updInv s j .done j = .done := by
          simp [updInv]
        have hrest := dispatchRun_count_of_done rest (updInv s j .done) j hdone' hacc'
        simp [dispatchRun, dispatchStep, hinf, List.count_cons, hrest, hasTerminal]
      · have hij : id ≠ j := fun h => hj h.symm
        by_cases hsj : s j = .inflight
        · have hinf' : updInv s j .done id = .inflight := by
            simp [updInv, hij, hinf]
          have := ih (updInv s j .done) id hinf' hacc'
          simp [dispatchRun, dispatchStep, hsj, List.count_cons, hij, hasTerminal, hj, this]
        · have := ih s id hinf hacc'
          simp [dispatchRun, dispatchStep, hsj, hasTerminal, hj, this]

/-- For an id the table does not know yet, accepted at most once in the
trace, the number of emitted response frames is one exactly when the trace
accepts the id and later carries a terminal event for it. -/
theorem dispatchRun_count_of_unknown :
    ∀ (t : List InvEvent) (s : String → InvStatus) (id : String),
      s id = .unknown → acceptCount t id ≤ 1 →
      (dispatchRun s t).count id = (acceptedThenTerminal t id).toNat := by
  intro t
  induction t with
  | nil => intro s id _ _; simp [dispatchRun, acceptedThenTerminal]
  | cons e rest ih =>
    intro s id hunk hacc
    cases e with
    | accept j =>
      by_cases hj : j = id
      · subst hj
        have hacc' : acceptCount rest j = 0 := by
          simp [acceptCount] at hacc
          omega
        have hinf' : updInv s j .inflight j = .inflight := by
          simp [updInv]
        have := dispatchRun_count_of_inflight rest (updInv s j .inflight) j hinf' hacc'
        simp [dispatchRun, dispatchStep, acceptedThenTerminal, this]
      · have hij : id ≠ j := fun h => hj h.symm
        have hacc' : acceptCount rest id ≤ 1 := by
          simpa [acceptCount, hj] using hacc
        have hunk' : updInv s j .inflight id = .unknown := by
          simp [updInv, hij, hunk]
        simpa [dispatchRun, dispatchStep, acceptedThenTerminal, hj] using
          ih (updInv s j .inflight) id hunk' hacc'
    | complete j =>
      have hacc' : acceptCount rest id ≤ 1 := by
        simpa [acceptCount] using hacc
      by_cases hsj : s j = .inflight
      · have hj : j ≠ id := by
          intro h
          subst h
          rw [hunk] at hsj
          exact absurd hsj (by simp)
        have hij : id ≠ j := fun h => hj h.symm
        have hunk' : updInv s j .done id = .unknown := by
          simp [updInv, hij, hunk]
        have := ih (updInv s j .done) id hunk' hacc'
        simp [dispatchRun, dispatchStep, hsj, List.count_cons, hij, acceptedThenTerminal, this]
      · have := ih s id hunk hacc'
        simp [dispatchRun, dispatchStep, hsj, acceptedThenTerminal, this]
    | cancelTimeout j =>
      have hacc' : acceptCount rest id ≤ 1 := by
        simpa [acceptCount] using hacc
      by_cases hsj : s j = .inflight
      · have hj : j ≠ id := by
          intro h
          subst h
          rw [hunk] at hsj
          exact absurd hsj (by simp)
        have hij : id ≠ j := fun h => hj h.symm
        have hunk' : updInv s j .done id = .unknown := by
          simp [updInv, hij, hunk]
        have := ih (updInv s j .done) id hunk' hacc'
        simp [dispatchRun, dispatchStep, hsj, List.count_cons, hij, acceptedThenTerminal, this]
      · have := ih s id hunk hacc'
        simp [dispatchRun, dispatchStep, hsj, acceptedThenTerminal, this]

/-- C4: over any event trace in which an `invocation_id` is accepted at most
once, the dispatcher model emits at most one response frame for that id, and
exactly one precisely when the trace accepts the id and later carries a
terminal event (handler completion or forced-cancel timeout) for it — a
completion arriving after a forced Cancelled report is discarded and never
produces a second frame. -/
theorem C4_exactly_one_response_per_invocation :
    ∀ (t : List InvEvent) (id : String),
      acceptCount t id ≤ 1 →
      (dispatchRun (fun _ => .unknown) t).count id ≤ 1 ∧
      ((dispatchRun (fun _ => .unknown) t).count id = 1 ↔
        acceptedThenTerminal t id = true) := by
  intro t id hacc
  have h := dispatchRun_count_of_unknown t (fun _ => .unknown) id rfl hacc
  rw [h]
  cases hb : acceptedThenTerminal t id <;> simp

/-- C4 witness: the racing trace — accept, forced-cancel timeout, then a
stale handler completion — emits exactly one response frame for "i". -/
theorem C4_exactly_one_response_per_invocation_witness :
    acceptCount [.accept "i", .cancelTimeout "i", .complete "i"] "i" ≤ 1 ∧
    (dispatchRun (fun _ => .unknown)
      [.accept "i", .cancelTimeout "i", .complete "i"]).count "i" = 1 :=
  ⟨by decide,
    (C4_exactly_one_response_per_invocation
      [.accept "i", .cancelTimeout "i", .complete "i"] "i" (by decide)).2.mpr
      (by decide)⟩

end AzFn
